import Mathlib

/-!
Verification development for a small Go market-ticker microservice
(`main.go`).  The service caches a snapshot of exchange tickers
(`Markets`), refreshes it periodically (`updateMarkets` calling
`getMarkets`), and serves two read endpoints (`CurrencyHandler`,
`CurrenciesHandler`).

The Go code is shallowly embedded: pure data flows become Lean
functions; the effectful pieces (the HTTP GET performed by
`getMarkets`, the read of the request) are passed in explicitly as
values.  The relevant parts of the Go standard library
(`encoding/json` marshalling and unmarshalling, `net/url` query
parsing) are modelled by executable Lean functions, faithful to the
library's documented behaviour on the value shapes this program uses.
-/

/-! ## Characters and small string utilities

The JSON renderer and parser below work on `List Char`.  Brace
characters are written via `Char.ofNat` / escapes throughout.
-/

/-- The opening-brace character. -/
def obraceC : Char := Char.ofNat 123

/-- The closing-brace character. -/
def cbraceC : Char := Char.ofNat 125

/-- The opening brace as a string. -/
def obr : String := "\x7b"

/-- The closing brace as a string. -/
def cbr : String := "\x7d"

/-- Value of a hexadecimal digit character, if it is one. -/
def hexDigitVal (c : Char) : Option Nat :=
  if '0' ≤ c ∧ c ≤ '9' then some (c.toNat - 48)
  else if 'a' ≤ c ∧ c ≤ 'f' then some (c.toNat - 87)
  else if 'A' ≤ c ∧ c ≤ 'F' then some (c.toNat - 55)
  else none

/-- Lower-case hexadecimal digit for a value below 16. -/
def hexDigitChar (n : Nat) : String :=
  String.singleton (if n < 10 then Char.ofNat (48 + n) else Char.ofNat (87 + n))

/-- ASCII lower-casing of one character (models Go's case folding on
the ASCII json tag names used by this program). -/
def toLowerChar (c : Char) : Char :=
  if 'A' ≤ c ∧ c ≤ 'Z' then Char.ofNat (c.toNat + 32) else c

/-- ASCII lower-casing of a string. -/
def lowerKey (s : String) : String := String.mk (s.toList.map toLowerChar)

/-- Drop the first `n` characters of a string (models Go string
slicing `s[n:]` for the ASCII paths this program routes). -/
def stringDropChars (s : String) (n : Nat) : String := String.mk (s.toList.drop n)

/-! ## JSON rendering (models `encoding/json` output)

`json.Marshal` escapes `"`, `\\`, control characters, and — because
HTML escaping is on by default — `<`, `>`, `&`, U+2028 and U+2029.
-/

/-- Escape one character the way `encoding/json` renders it inside a
JSON string. -/
def escapeJsonChar (c : Char) : String :=
  if c = '"' then "\\\""
  else if c = '\\' then "\\\\"
  else if c = '\n' then "\\n"
  else if c = '\r' then "\\r"
  else if c = '\t' then "\\t"
  else if c.toNat < 32 then "\\u00" ++ hexDigitChar (c.toNat / 16) ++ hexDigitChar (c.toNat % 16)
  else if c = '<' then "\\u003c"
  else if c = '>' then "\\u003e"
  else if c = '&' then "\\u0026"
  else if c.toNat = 8232 then "\\u2028"
  else if c.toNat = 8233 then "\\u2029"
  else String.singleton c

/-- Render a string as a quoted, escaped JSON string literal. -/
def quoteJson (s : String) : String :=
  "\"" ++ String.join (s.toList.map escapeJsonChar) ++ "\""

/-- Render a flat JSON object whose members are all strings, keys in
the given order — the shape `json.Marshal` produces for a Go struct
whose exported fields are all of type `string`. -/
def marshalFlatObj (fields : List (String × String)) : String :=
  obr ++ String.intercalate "," (fields.map (fun p => quoteJson p.1 ++ ":" ++ quoteJson p.2)) ++ cbr

/-! ## JSON values and a JSON parser (models `encoding/json` input)

`Json` is the parse tree; numbers keep their raw text (this program
never reads numbers — every struct field it decodes is a string).
The parser is fuel-indexed structural recursion so that concrete
inputs evaluate inside the kernel.
-/

/-- A parsed JSON value. -/
inductive Json where
  | null : Json
  | bool (b : Bool) : Json
  | num (raw : String) : Json
  | str (s : String) : Json
  | arr (elems : List Json) : Json
  | obj (members : List (String × Json)) : Json

/-- Skip JSON whitespace. -/
def skipWs : List Char → List Char
  | c :: rest =>
    if c = ' ' ∨ c = '\t' ∨ c = '\n' ∨ c = '\r' then skipWs rest else c :: rest
  | [] => []

/-- Parse the body of a JSON string literal (after the opening quote);
returns the decoded characters and the input after the closing quote.
Handles the escapes `encoding/json` accepts; a lone surrogate escape
decodes to U+FFFD as in Go. -/
def parseStringBody : List Char → Option (List Char × List Char)
  | [] => none
  | c :: rest =>
    if c = '"' then some ([], rest)
    else if c = '\\' then
      match rest with
      | [] => none
      | e :: rest2 =>
        if e = '"' ∨ e = '\\' ∨ e = '/' then
          match parseStringBody rest2 with
          | some (content, r) => some (e :: content, r)
          | none => none
        else if e = 'b' ∨ e = 'f' ∨ e = 'n' ∨ e = 'r' ∨ e = 't' then
          let ch : Char :=
            if e = 'b' then Char.ofNat 8
            else if e = 'f' then Char.ofNat 12
            else if e = 'n' then '\n'
            else if e = 'r' then '\r'
            else '\t'
          match parseStringBody rest2 with
          | some (content, r) => some (ch :: content, r)
          | none => none
        else if e = 'u' then
          match rest2 with
          | h1 :: h2 :: h3 :: h4 :: rest3 =>
            match hexDigitVal h1, hexDigitVal h2, hexDigitVal h3, hexDigitVal h4 with
            | some a, some b, some c2, some d =>
              let code := ((a * 16 + b) * 16 + c2) * 16 + d
              let ch := if 55296 ≤ code ∧ code ≤ 57343 then Char.ofNat 65533 else Char.ofNat code
              match parseStringBody rest3 with
              | some (content, r) => some (ch :: content, r)
              | none => none
            | _, _, _, _ => none
          | _ => none
        else none
    else if c.toNat < 32 then none
    else
      match parseStringBody rest with
      | some (content, r) => some (c :: content, r)
      | none => none

/-- Parse an optional JSON fraction part, returning its raw text. -/
def parseFrac (cs : List Char) : Option (List Char × List Char) :=
  match cs with
  | '.' :: rest =>
    let p := rest.span Char.isDigit
    if p.1.isEmpty then none else some ('.' :: p.1, p.2)
  | _ => some ([], cs)

/-- Parse an optional JSON exponent part, returning its raw text. -/
def parseExp (cs : List Char) : Option (List Char × List Char) :=
  match cs with
  | c :: rest =>
    if c = 'e' ∨ c = 'E' then
      let sp : List Char × List Char :=
        match rest with
        | s :: r2 => if s = '+' ∨ s = '-' then ([s], r2) else ([], rest)
        | [] => ([], rest)
      let p := sp.2.span Char.isDigit
      if p.1.isEmpty then none else some (c :: (sp.1 ++ p.1), p.2)
    else some ([], cs)
  | [] => some ([], cs)

/-- Parse a JSON number (strict grammar: no leading zeros, digits
required around `.` and after the exponent). -/
def parseNumber (cs : List Char) : Option (Json × List Char) :=
  let sp : List Char × List Char :=
    match cs with
    | '-' :: rest => (['-'], rest)
    | _ => ([], cs)
  let ip := sp.2.span Char.isDigit
  if ip.1.isEmpty then none
  else if 1 < ip.1.length ∧ ip.1.head? = some '0' then none
  else
    match parseFrac ip.2 with
    | none => none
    | some (fr, cs3) =>
      match parseExp cs3 with
      | none => none
      | some (ex, cs4) => some (Json.num (String.mk (sp.1 ++ ip.1 ++ fr ++ ex)), cs4)

/-- If the input starts with the keyword, drop it. -/
def dropKeyword (kw : List Char) (cs : List Char) : Option (List Char) :=
  if cs.take kw.length = kw then some (cs.drop kw.length) else none

/-- Parser mode: a value, the remaining elements of an array, or the
remaining members of an object. -/
inductive PMode where
  | value : PMode
  | elems (acc : List Json) : PMode
  | members (acc : List (String × Json)) : PMode

/-- The fuel-indexed JSON parser core. -/
def parseJAux : Nat → PMode → List Char → Option (Json × List Char)
  | 0, _, _ => none
  | Nat.succ f, PMode.value, cs0 =>
    let cs := skipWs cs0
    match dropKeyword "null".toList cs with
    | some rest => some (Json.null, rest)
    | none =>
    match dropKeyword "true".toList cs with
    | some rest => some (Json.bool true, rest)
    | none =>
    match dropKeyword "false".toList cs with
    | some rest => some (Json.bool false, rest)
    | none =>
    match cs with
    | [] => none
    | c :: rest =>
      if c = '"' then
        match parseStringBody rest with
        | some (content, rest2) => some (Json.str (String.mk content), rest2)
        | none => none
      else if c = obraceC then parseJAux f (PMode.members []) rest
      else if c = '[' then parseJAux f (PMode.elems []) rest
      else parseNumber cs
  | Nat.succ f, PMode.elems acc, cs0 =>
    let cs := skipWs cs0
    match cs with
    | [] => none
    | c :: rest =>
      if c = ']' ∧ acc.isEmpty then some (Json.arr [], rest)
      else
        match parseJAux f PMode.value cs with
        | none => none
        | some (v, rest2) =>
          match skipWs rest2 with
          | ',' :: rest3 => parseJAux f (PMode.elems (acc ++ [v])) rest3
          | ']' :: rest3 => some (Json.arr (acc ++ [v]), rest3)
          | _ => none
  | Nat.succ f, PMode.members acc, cs0 =>
    let cs := skipWs cs0
    match cs with
    | [] => none
    | c :: rest =>
      if c = cbraceC ∧ acc.isEmpty then some (Json.obj [], rest)
      else if c = '"' then
        match parseStringBody rest with
        | none => none
        | some (key, rest2) =>
          match skipWs rest2 with
          | ':' :: rest3 =>
            match parseJAux f PMode.value rest3 with
            | none => none
            | some (v, rest4) =>
              match skipWs rest4 with
              | ',' :: rest5 => parseJAux f (PMode.members (acc ++ [(String.mk key, v)])) rest5
              | c2 :: rest5 =>
                if c2 = cbraceC then some (Json.obj (acc ++ [(String.mk key, v)]), rest5) else none
              | [] => none
          | _ => none
      else none

/-- Parse a complete JSON document (trailing content other than
whitespace is rejected, as `json.Unmarshal` does). -/
def parseJson (s : String) : Option Json :=
  let cs := s.toList
  match parseJAux (2 * cs.length + 2) PMode.value cs with
  | some (v, rest) => if (skipWs rest).isEmpty then some v else none
  | none => none

/-! ## Data model (structs from `main.go`)

Field names follow the Go source; `Open` is rendered `open_` because
`open` is a Lean keyword.  `PercentChage` keeps the source's typo
(its json tag is still `percentChange`).
-/

/-- `MarketTicker` struct: the data for a single market ticker. -/
structure MarketTicker where
  ask : String
  bid : String
  last : String
  open_ : String
  low : String
  high : String
  volume : String
deriving DecidableEq, Repr

/-- `Currency` struct: the data for a single currency, as served. -/
structure Currency where
  id : String
  fullName : String
  ask : String
  bid : String
  last : String
  open_ : String
  low : String
  high : String
  feeCurrency : String
  volume : String
  quoteVolume : String
  change : String
  percentChage : String
deriving DecidableEq, Repr

/-- `Markets` struct: the shared snapshot, a `map[string]MarketTicker`
modelled as an association list with the map's key-uniqueness stated
where a claim needs it. -/
structure Markets where
  markets : List (String × MarketTicker)
deriving DecidableEq, Repr

/-- Go map read `m[k]`: the entry for `k`, if present. -/
def mapGet (m : Markets) (k : String) : Option MarketTicker :=
  (m.markets.find? (fun p => p.1 == k)).map Prod.snd

/-- Go map write `m[k] = v`: replace an existing entry or add one. -/
def mapSet (m : List (String × MarketTicker)) (k : String) (v : MarketTicker)
    : List (String × MarketTicker) :=
  if m.any (fun p => p.1 == k) then m.map (fun p => if p.1 == k then (k, v) else p)
  else m ++ [(k, v)]

/-! ## `json.Unmarshal` into `map[string]MarketTicker`

Faithful to `encoding/json` decoding on this target type: the
document must be an object (or `null`, which leaves the map empty);
each member value must itself be an object (or `null`, giving the
zero ticker); ticker keys match the json tags case-insensitively;
ticker field values must be JSON strings (or `null`, leaving the
field's zero value); any other shape is a decode error; unknown keys
are ignored; a duplicated key's later value wins.
-/

/-- The zero value of `MarketTicker`. -/
def zeroTicker : MarketTicker := ⟨"", "", "", "", "", "", ""⟩

/-- Decode one object member into a `MarketTicker` field (Go matches
json tags case-insensitively; unknown keys are skipped). -/
def setTickerField (t : MarketTicker) (key : String) (v : Json) : Except String MarketTicker :=
  let k := lowerKey key
  let asStr (set : String → MarketTicker) : Except String MarketTicker :=
    match v with
    | Json.str s => Except.ok (set s)
    | Json.null => Except.ok t
    | _ => Except.error ("json: cannot unmarshal value into Go struct field MarketTicker." ++ k ++ " of type string")
  if k = "ask" then asStr (fun s => { t with ask := s })
  else if k = "bid" then asStr (fun s => { t with bid := s })
  else if k = "last" then asStr (fun s => { t with last := s })
  else if k = "open" then asStr (fun s => { t with open_ := s })
  else if k = "low" then asStr (fun s => { t with low := s })
  else if k = "high" then asStr (fun s => { t with high := s })
  else if k = "volume" then asStr (fun s => { t with volume := s })
  else Except.ok t

/-- Decode a JSON value as a `MarketTicker`. -/
def decodeTicker (j : Json) : Except String MarketTicker :=
  match j with
  | Json.null => Except.ok zeroTicker
  | Json.obj members => members.foldlM (fun t kv => setTickerField t kv.1 kv.2) zeroTicker
  | _ => Except.error "json: cannot unmarshal value into Go value of type main.MarketTicker"

/-- Decode a JSON value as a `map[string]MarketTicker`. -/
def decodeTickerMap (j : Json) : Except String (List (String × MarketTicker)) :=
  match j with
  | Json.null => Except.ok []
  | Json.obj members =>
    members.foldlM (fun acc kv => (decodeTicker kv.2).map (fun t => mapSet acc kv.1 t)) []
  | _ => Except.error "json: cannot unmarshal value into Go value of type map[string]main.MarketTicker"

/-- `json.Unmarshal(body, &marketTickers)` for this program's target
type: parse the body, then decode. -/
def unmarshalTickerMap (body : String) : Except String (List (String × MarketTicker)) :=
  match parseJson body with
  | none => Except.error "invalid JSON body"
  | some v => decodeTickerMap v

/-! ## `net/url` query model

`r.URL.Query()` parses `RawQuery` into a fresh `url.Values` on every
call; mutating the returned copy (as the router in `main` does with
`Set`) does not change the request.  `ParseQuery` splits on `&`,
skips empty segments and segments containing `;`, cuts each segment
at the first `=`, percent-decodes both halves (`+` becomes space) and
drops a pair whose unescaping fails.
-/

/-- Split a character list on a separator. -/
def splitOnChar (sep : Char) : List Char → List (List Char)
  | [] => [[]]
  | c :: rest =>
    match splitOnChar sep rest with
    | [] => if c = sep then [[], []] else [[c]]
    | g :: gs => if c = sep then [] :: g :: gs else (c :: g) :: gs

/-- Cut a segment at the first `=` (Go's `strings.Cut`). -/
def cutAtEq : List Char → List Char × List Char
  | [] => ([], [])
  | '=' :: rest => ([], rest)
  | c :: rest =>
    let p := cutAtEq rest
    (c :: p.1, p.2)

/-- `url.QueryUnescape`: decode `%HH` and `+`; fail on a malformed
escape. -/
def queryUnescape : List Char → Option (List Char)
  | [] => some []
  | '%' :: h1 :: h2 :: rest =>
    match hexDigitVal h1, hexDigitVal h2 with
    | some a, some b =>
      match queryUnescape rest with
      | some r => some (Char.ofNat (16 * a + b) :: r)
      | none => none
    | _, _ => none
  | '%' :: _ => none
  | '+' :: rest =>
    match queryUnescape rest with
    | some r => some (' ' :: r)
    | none => none
  | c :: rest =>
    match queryUnescape rest with
    | some r => some (c :: r)
    | none => none

/-- `url.ParseQuery` on a raw query string, as `r.URL.Query()` uses
it (parse errors are swallowed; the successfully parsed pairs are
returned in order). -/
def parseQuery (rawQuery : String) : List (String × String) :=
  (splitOnChar '&' rawQuery.toList).foldr
    (fun seg acc =>
      if seg.isEmpty then acc
      else if seg.any (fun c => c == ';') then acc
      else
        let kv := cutAtEq seg
        match queryUnescape kv.1, queryUnescape kv.2 with
        | some k2, some v2 => (String.mk k2, String.mk v2) :: acc
        | _, _ => acc)
    []

/-- `url.Values.Get`: first value for the key, or `""` when absent. -/
def queryGet (q : List (String × String)) (k : String) : String :=
  match q.find? (fun p => p.1 == k) with
  | some p => p.2
  | none => ""

/-- `url.Values.Set`: replace the key's values with the single value
(the router calls this on the copy `Query()` returned). -/
def querySet (q : List (String × String)) (k v : String) : List (String × String) :=
  (q.filter (fun p => p.1 != k)) ++ [(k, v)]

/-! ## HTTP request and response model -/

/-- The part of `*http.Request` this program reads: the URL path and
the raw query string. -/
structure Request where
  path : String
  rawQuery : String
deriving DecidableEq, Repr

/-- The observable response: status, Content-Type, body. -/
structure Response where
  status : Nat
  contentType : String
  body : String
deriving DecidableEq, Repr

/-- `http.Error(w, msg, code)`: plain-text error with a trailing
newline. -/
def httpError (msg : String) (code : Nat) : Response :=
  ⟨code, "text/plain; charset=utf-8", msg ++ "\n"⟩

/-- A 200 response with a JSON body, as both handlers' success path
produces. -/
def okJson (body : String) : Response :=
  ⟨200, "application/json", body⟩

/-! ## `json.Marshal` for the output types

`Currency` is a struct whose exported fields are all `string`;
`json.Marshal` renders it as a flat object with the json-tag keys in
declaration order and cannot return an error for such a value
(marshal errors arise only from unsupported types/values or custom
marshalers, none of which occur here).  The `Except` result keeps the
`(bytes, error)` shape of the Go API, with the error branch matched
— and provably never taken — by the handlers.  A nil `[]Currency`
slice renders as `null`; a non-nil slice as an array.
-/

/-- The `Currency` fields in declaration order with their json tags. -/
def currencyFields (c : Currency) : List (String × String) :=
  [("id", c.id), ("fullName", c.fullName), ("ask", c.ask), ("bid", c.bid),
   ("last", c.last), ("open", c.open_), ("low", c.low), ("high", c.high),
   ("feeCurrency", c.feeCurrency), ("volume", c.volume), ("quoteVolume", c.quoteVolume),
   ("change", c.change), ("percentChange", c.percentChage)]

/-- `json.Marshal` on a `Currency` value. -/
def jsonMarshalCurrency (c : Currency) : Except String String :=
  Except.ok (marshalFlatObj (currencyFields c))

/-- Render a `[]Currency` slice (`none` is Go's nil slice, which
marshals as `null`). -/
def marshalCurrencySlice (cs : Option (List Currency)) : String :=
  match cs with
  | none => "null"
  | some l =>
    "[" ++ String.intercalate "," (l.map (fun c => marshalFlatObj (currencyFields c))) ++ "]"

/-- `json.Marshal` on a `CurrencyData` value (one slice field with
json tag `currencies`). -/
def jsonMarshalCurrencyData (cs : Option (List Currency)) : Except String String :=
  Except.ok (obr ++ quoteJson "currencies" ++ ":" ++ marshalCurrencySlice cs ++ cbr)

/-! ## The query handlers (`CurrencyHandler`, `CurrenciesHandler`) -/

/-- The `Currency` literal both handlers build from a symbol and its
ticker: id and fullName are the symbol, the six price fields are
copied verbatim, `FeeCurrency` is hard-coded to "BTC", and the four
unset fields keep Go's zero value `""`. -/
def mkCurrency (symbol : String) (marketTicker : MarketTicker) : Currency :=
  { id := symbol
    fullName := symbol
    ask := marketTicker.ask
    bid := marketTicker.bid
    last := marketTicker.last
    open_ := marketTicker.open_
    low := marketTicker.low
    high := marketTicker.high
    feeCurrency := "BTC"
    volume := ""
    quoteVolume := ""
    change := ""
    percentChage := "" }

/-- `CurrencyHandler`: handles GET /currency/\x7bsymbol\x7d.  Reads the
`symbol` query parameter from the request, answers 400 when it is
empty/absent or not a key of the snapshot, otherwise serves the
projected `Currency` as JSON. -/
def CurrencyHandler (markets : Markets) (r : Request) : Response :=
  let symbol := queryGet (parseQuery r.rawQuery) "symbol"
  if symbol = "" then httpError "No symbol specified" 400
  else
    match mapGet markets symbol with
    | none => httpError "Invalid symbol specified" 400
    | some marketTicker =>
      match jsonMarshalCurrency (mkCurrency symbol marketTicker) with
      | Except.error e => httpError e 500
      | Except.ok js => okJson js

/-- Go's `append` on a `[]Currency` slice variable that starts nil:
after the first append the slice is non-nil. -/
def goAppend (s : Option (List Currency)) (c : Currency) : Option (List Currency) :=
  some (s.getD [] ++ [c])

/-- The `currencies` slice `CurrenciesHandler` builds: starts as the
nil slice `var currencies []Currency` and appends one projected
record per snapshot entry.  Go map iteration order is unspecified;
the model iterates in the association list's order. -/
def currenciesOf (markets : Markets) : Option (List Currency) :=
  markets.markets.foldl (fun currencies p => goAppend currencies (mkCurrency p.1 p.2)) none

/-- `CurrenciesHandler`: handles GET /currency/all.  Serves every
snapshot entry's projected record inside a `CurrencyData` wrapper. -/
def CurrenciesHandler (markets : Markets) (_r : Request) : Response :=
  match jsonMarshalCurrencyData (currenciesOf markets) with
  | Except.error e => httpError e 500
  | Except.ok js => okJson js

/-! ## The market fetcher (`getMarkets`) and the refresh tick

`getMarkets` performs one `http.Get`; its interaction with the
outside world is passed in as a `FetchOutcome`.  The Go code never
reads `resp.StatusCode`: a `success` outcome carries the status only
so that theorems can state that it is ignored.
-/

/-- Outcome of the one `http.Get` plus `ioutil.ReadAll` performed by
`getMarkets`: the request failed at the network level, reading the
body failed, or a body was obtained (with some transport status). -/
inductive FetchOutcome where
  | netError (msg : String) : FetchOutcome
  | readError (msg : String) : FetchOutcome
  | success (status : Nat) (body : String) : FetchOutcome
deriving DecidableEq, Repr

/-- `getMarkets`: given the configured symbols and the upstream
outcome, propagate the network/read error, otherwise unmarshal the
body into a ticker map and wrap it in `Markets`.  Neither `symbols`
nor the response status is inspected, exactly as in the source. -/
def getMarkets (symbols : List String) (outcome : FetchOutcome) : Except String Markets :=
  match outcome with
  | FetchOutcome.netError msg => Except.error msg
  | FetchOutcome.readError msg => Except.error msg
  | FetchOutcome.success _status body =>
    match unmarshalTickerMap body with
    | Except.error e => Except.error e
    | Except.ok marketTickers => Except.ok ⟨marketTickers⟩

/-- One iteration of the refresh goroutine in `updateMarkets`: call
`getMarkets`; on error log and keep the current snapshot, on success
replace it wholesale (`*markets = *newMarkets`). -/
def updateMarketsTick (markets : Markets) (symbols : List String) (outcome : FetchOutcome)
    : Markets :=
  match getMarkets symbols outcome with
  | Except.error _ => markets
  | Except.ok newMarkets => newMarkets

/-! ## The router for `/currency/` (from `main`)

The Go router slices the path after `/currency/` and, for a non-"all"
segment, runs `r.URL.Query().Set("symbol", symbol)` before invoking
`CurrencyHandler`.  `Query()` returns a freshly parsed copy of the
query values, so the `Set` mutates only that discarded copy — the
request's `RawQuery` is untouched and the handler re-parses it. -/
def handleCurrencyPath (markets : Markets) (r : Request) : Response :=
  let symbol := stringDropChars r.path ("/currency/".length)
  if symbol ≠ "all" then
    let _discardedCopy := querySet (parseQuery r.rawQuery) "symbol" symbol
    CurrencyHandler markets r
  else
    CurrenciesHandler markets r

/-! ## Concrete example values (from the spec's worked example) -/

/-- The spec's example ticker for "BTCUSD". -/
def exTicker : MarketTicker := ⟨"10", "9", "9.5", "9", "8", "11", "100"⟩

/-- A snapshot holding exactly the example ticker. -/
def exMarkets : Markets := ⟨[("BTCUSD", exTicker)]⟩

/-- A request whose query selects the example symbol. -/
def exRequest : Request := ⟨"/currency/BTCUSD", "symbol=BTCUSD"⟩

/-- A ticker used for counterexample snapshots. -/
def cexTicker : MarketTicker := ⟨"1", "2", "3", "4", "5", "6", "7"⟩

/-! ## Claims -/

/-- C1 counterexample: the claim quantifies over every symbol present
in the snapshot, but the empty string is a possible snapshot key (Go
maps allow it and the upstream JSON may contain it), and for it
`CurrencyHandler` returns 400 "No symbol specified" instead of a
record, because the empty `symbol` parameter is rejected before the
snapshot is consulted. -/
theorem c1_counterexample :
    mapGet ⟨[("", cexTicker)]⟩ "" = some cexTicker ∧
    queryGet (parseQuery "symbol=") "symbol" = "" ∧
    CurrencyHandler ⟨[("", cexTicker)]⟩ ⟨"/currency/", "symbol="⟩
      = httpError "No symbol specified" 400 :=
  ⟨rfl, rfl, rfl⟩

/-- C1 (amended): for every nonempty symbol `S` present in the
snapshot, `CurrencyHandler` with symbol parameter `S` returns 200
with one JSON record whose id and fullName are `S`, whose
ask/bid/last/open/low/high are the ticker's fields verbatim, whose
feeCurrency is the literal "BTC", and whose volume, quoteVolume,
change and percentChange are empty strings. -/
theorem c1_getOne_projection (markets : Markets) (r : Request) (S : String) (t : MarketTicker)
    (hq : queryGet (parseQuery r.rawQuery) "symbol" = S) (hne : S ≠ "")
    (hm : mapGet markets S = some t) :
    CurrencyHandler markets r =
      okJson (marshalFlatObj
        [("id", S), ("fullName", S), ("ask", t.ask), ("bid", t.bid), ("last", t.last),
         ("open", t.open_), ("low", t.low), ("high", t.high), ("feeCurrency", "BTC"),
         ("volume", ""), ("quoteVolume", ""), ("change", ""), ("percentChange", "")]) := by
  show (if queryGet (parseQuery r.rawQuery) "symbol" = "" then _ else _) = _
  rw [hq, if_neg hne, hm]
  rfl

/-- C1 witness: on the spec's example snapshot the projected body is
exactly the spec's example JSON. -/
theorem c1_witness :
    CurrencyHandler exMarkets exRequest =
      okJson ("\x7b\"id\":\"BTCUSD\",\"fullName\":\"BTCUSD\",\"ask\":\"10\",\"bid\":\"9\"," ++
        "\"last\":\"9.5\",\"open\":\"9\",\"low\":\"8\",\"high\":\"11\",\"feeCurrency\":\"BTC\"," ++
        "\"volume\":\"\",\"quoteVolume\":\"\",\"change\":\"\",\"percentChange\":\"\"\x7d") :=
  c1_getOne_projection exMarkets exRequest "BTCUSD" exTicker rfl (by decide) rfl

/-- C2 (confirmed): `CurrencyHandler` answers 400 "No symbol
specified" when the symbol parameter is empty or absent (Go's
`Values.Get` returns `""` in both cases), and the distinct 400
"Invalid symbol specified" when the symbol is not a snapshot key; in
both cases the response is the plain-text error, never a success
body, and the handler is a total function (no crash). -/
theorem c2_badRequest (markets : Markets) (r : Request) :
    (queryGet (parseQuery r.rawQuery) "symbol" = "" →
      CurrencyHandler markets r = httpError "No symbol specified" 400) ∧
    (∀ S, queryGet (parseQuery r.rawQuery) "symbol" = S → S ≠ "" → mapGet markets S = none →
      CurrencyHandler markets r = httpError "Invalid symbol specified" 400) := by
  constructor
  · intro h
    show (if queryGet (parseQuery r.rawQuery) "symbol" = "" then _ else _) = _
    rw [h, if_pos rfl]
  · intro S hq hne hm
    show (if queryGet (parseQuery r.rawQuery) "symbol" = "" then _ else _) = _
    rw [hq, if_neg hne, hm]

/-- C2 witness: the two error branches at concrete requests against
the example snapshot. -/
theorem c2_witness :
    CurrencyHandler exMarkets ⟨"/currency/", ""⟩ = httpError "No symbol specified" 400 ∧
    CurrencyHandler exMarkets ⟨"/currency/", "symbol=DOGE"⟩
      = httpError "Invalid symbol specified" 400 :=
  ⟨(c2_badRequest exMarkets ⟨"/currency/", ""⟩).1 rfl,
   (c2_badRequest exMarkets ⟨"/currency/", "symbol=DOGE"⟩).2 "DOGE" rfl (by decide) rfl⟩

/-- The `currencies` slice accumulated by `CurrenciesHandler`'s loop
is the projection of the entries, in iteration order. -/
lemma foldl_goAppend_getD (l : List (String × MarketTicker)) (acc : Option (List Currency)) :
    (l.foldl (fun currencies p => goAppend currencies (mkCurrency p.1 p.2)) acc).getD []
      = acc.getD [] ++ l.map (fun p => mkCurrency p.1 p.2) := by
  induction l generalizing acc with
  | nil => simp
  | cons hd tl ih =>
    rw [List.foldl_cons, ih]
    simp [goAppend]

/-- A successful `mapGet` comes from an entry of the list. -/
lemma mapGet_mem {m : Markets} {S : String} {t : MarketTicker}
    (hm : mapGet m S = some t) : (S, t) ∈ m.markets := by
  unfold mapGet at hm
  cases hfind : m.markets.find? (fun p => p.1 == S) with
  | none => rw [hfind] at hm; simp at hm
  | some p =>
    rw [hfind] at hm
    simp only [Option.map_some'] at hm
    have hmem := List.mem_of_find?_eq_some hfind
    have h1 : p.1 = S := by simpa using List.find?_some hfind
    have : p = (S, t) := by
      cases p
      simp only at h1 hm
      injection hm with hm2
      rw [h1, hm2]
    rwa [this] at hmem

/-- C3 (confirmed): under the map invariant that keys are distinct,
`CurrenciesHandler`'s record list is exactly one projected record per
snapshot entry — its length equals the snapshot size, it is the
entrywise projection, every looked-up symbol's projected record (the
record `CurrencyHandler` would serve: id and fullName the key, price
fields verbatim, feeCurrency "BTC", optional fields empty) is in it,
and every record carries the literal "BTC" fee currency. -/
theorem c3_getAll_projection (markets : Markets)
    (hnodup : (markets.markets.map Prod.fst).Nodup) :
    ((currenciesOf markets).getD []).length = markets.markets.length ∧
    (currenciesOf markets).getD [] = markets.markets.map (fun p => mkCurrency p.1 p.2) ∧
    (∀ S t, mapGet markets S = some t → mkCurrency S t ∈ (currenciesOf markets).getD []) ∧
    (∀ c, c ∈ (currenciesOf markets).getD [] → c.feeCurrency = "BTC") := by
  have heq : (currenciesOf markets).getD [] = markets.markets.map (fun p => mkCurrency p.1 p.2) := by
    unfold currenciesOf
    rw [foldl_goAppend_getD]
    simp
  refine ⟨?_, heq, ?_, ?_⟩
  · rw [heq, List.length_map]
  · intro S t hm
    rw [heq]
    exact List.mem_map_of_mem _ (mapGet_mem hm)
  · intro c hc
    rw [heq] at hc
    obtain ⟨p, _, hp⟩ := List.mem_map.mp hc
    rw [← hp]
    rfl

/-- C3 witness: a two-symbol snapshot with distinct keys yields two
records, the entrywise projections. -/
theorem c3_witness :
    ((currenciesOf ⟨[("BTCUSD", exTicker), ("ETHUSD", cexTicker)]⟩).getD []).length
      = (Markets.mk [("BTCUSD", exTicker), ("ETHUSD", cexTicker)]).markets.length ∧
    (currenciesOf ⟨[("BTCUSD", exTicker), ("ETHUSD", cexTicker)]⟩).getD []
      = [mkCurrency "BTCUSD" exTicker, mkCurrency "ETHUSD" cexTicker] :=
  ⟨(c3_getAll_projection ⟨[("BTCUSD", exTicker), ("ETHUSD", cexTicker)]⟩ (by decide)).1,
   (c3_getAll_projection ⟨[("BTCUSD", exTicker), ("ETHUSD", cexTicker)]⟩ (by decide)).2.1⟩

/-- C4 counterexample: on the empty snapshot `CurrenciesHandler`
serves the body `\x7b"currencies":null\x7d` — the `currencies` field
is JSON `null`, not the empty list the claim requires, because the Go
loop never appends and the nil `[]Currency` slice marshals as
`null`. -/
theorem c4_counterexample :
    CurrenciesHandler ⟨[]⟩ ⟨"/currency/all", ""⟩ = okJson "\x7b\"currencies\":null\x7d" ∧
    "\x7b\"currencies\":null\x7d" ≠ "\x7b\"currencies\":[]\x7d" :=
  ⟨rfl, by decide⟩

/-- C4 (amended): when the snapshot is empty, `CurrenciesHandler`
succeeds (status 200, JSON content type) and its body is
`\x7b"currencies":null\x7d`: the handler's `[]Currency` slice is
still nil, and `json.Marshal` renders a nil slice as `null` rather
than as an empty list. -/
theorem c4_empty_snapshot (markets : Markets) (r : Request) (h : markets.markets = []) :
    CurrenciesHandler markets r = okJson "\x7b\"currencies\":null\x7d" := by
  have hm : markets = ⟨[]⟩ := by cases markets; simpa using h
  rw [hm]
  rfl

/-- C4 witness: the amended behaviour at the empty snapshot. -/
theorem c4_witness :
    CurrenciesHandler ⟨[]⟩ ⟨"/currency/all", ""⟩ = okJson "\x7b\"currencies\":null\x7d" :=
  c4_empty_snapshot ⟨[]⟩ ⟨"/currency/all", ""⟩ rfl

/-- C5 (code bug): routing GET /currency/BTCUSD with "BTCUSD" a key
of the snapshot and no query string yields 400 "No symbol specified",
not the currency object: the router's
`r.URL.Query().Set("symbol", symbol)` mutates only the copy that
`Query()` returned, so the path segment never reaches the handler,
which re-parses the unchanged empty `RawQuery`.  The `Set` call shows
the router's intent is exactly what the claim says. -/
theorem c5_path_routing_bug :
    mapGet exMarkets "BTCUSD" = some exTicker ∧
    handleCurrencyPath exMarkets ⟨"/currency/BTCUSD", ""⟩
      = httpError "No symbol specified" 400 :=
  ⟨rfl, rfl⟩

/-- C6 (confirmed): a refresh tick whose fetch fails leaves the
shared snapshot exactly unchanged — the tick returns the prior
`Markets` value itself, so every key and ticker field is equal to the
prior snapshot's — and subsequent `CurrencyHandler` /
`CurrenciesHandler` calls observe exactly the responses the prior
snapshot gave.  Only the success branch of the tick installs a new
snapshot. -/
theorem c6_failed_refresh_keeps_snapshot (markets : Markets) (symbols : List String)
    (outcome : FetchOutcome) (e : String)
    (h : getMarkets symbols outcome = Except.error e) :
    updateMarketsTick markets symbols outcome = markets ∧
    (∀ r, CurrencyHandler (updateMarketsTick markets symbols outcome) r
            = CurrencyHandler markets r) ∧
    (∀ r, CurrenciesHandler (updateMarketsTick markets symbols outcome) r
            = CurrenciesHandler markets r) := by
  have hkeep : updateMarketsTick markets symbols outcome = markets := by
    unfold updateMarketsTick
    rw [h]
  exact ⟨hkeep, fun r => by rw [hkeep], fun r => by rw [hkeep]⟩

/-- C6 witness: a network failure on the tick leaves the example
snapshot in place. -/
theorem c6_witness :
    updateMarketsTick exMarkets [] (FetchOutcome.netError "connection refused") = exMarkets :=
  (c6_failed_refresh_keeps_snapshot exMarkets [] (FetchOutcome.netError "connection refused")
    "connection refused" rfl).1

/-- C7 counterexample: the claim requires an error on a non-success
transport status, but `getMarkets` never inspects the status: an
upstream reply with status 500 whose body is the parseable empty
object yields a normal empty snapshot, not an error. -/
theorem c7_counterexample :
    getMarkets [] (FetchOutcome.success 500 "\x7b\x7d") = Except.ok ⟨[]⟩ :=
  rfl

/-- C7 (amended): `getMarkets` returns an error — and no snapshot —
exactly when the HTTP GET fails at the network level, reading the
response body fails, or the body does not unmarshal as a
symbol-to-ticker mapping; the transport status is never inspected (a
body obtained with any status parses the same), and on a parseable
body the parsed mapping is returned. -/
theorem c7_getMarkets_errors :
    (∀ symbols msg, getMarkets symbols (FetchOutcome.netError msg) = Except.error msg) ∧
    (∀ symbols msg, getMarkets symbols (FetchOutcome.readError msg) = Except.error msg) ∧
    (∀ symbols status status2 body,
      getMarkets symbols (FetchOutcome.success status body)
        = getMarkets symbols (FetchOutcome.success status2 body)) ∧
    (∀ symbols status body e, unmarshalTickerMap body = Except.error e →
      getMarkets symbols (FetchOutcome.success status body) = Except.error e) ∧
    (∀ symbols status body m, unmarshalTickerMap body = Except.ok m →
      getMarkets symbols (FetchOutcome.success status body) = Except.ok ⟨m⟩) := by
  refine ⟨fun _ _ => rfl, fun _ _ => rfl, fun _ _ _ _ => rfl, ?_, ?_⟩
  · intro symbols status body e h
    simp only [getMarkets, h]
  · intro symbols status body m h
    simp only [getMarkets, h]

/-- C7 witness: a parseable body yields the parsed mapping and an
unparseable body yields its decode error, at concrete inputs. -/
theorem c7_witness :
    getMarkets [] (FetchOutcome.success 200 "\x7b\x7d") = Except.ok ⟨[]⟩ ∧
    getMarkets [] (FetchOutcome.success 200 "not json") = Except.error "invalid JSON body" :=
  ⟨c7_getMarkets_errors.2.2.2.2 [] 200 "\x7b\x7d" [] rfl,
   c7_getMarkets_errors.2.2.2.1 [] 200 "not json" "invalid JSON body" rfl⟩

/-- C8 (confirmed): `getMarkets` never reads its `symbols` argument —
the upstream call fetches all tickers unfiltered — so for any two
symbol lists and the same upstream response the result is
definitionally the same snapshot. -/
theorem c8_symbols_ignored (symbols1 symbols2 : List String) (outcome : FetchOutcome) :
    getMarkets symbols1 outcome = getMarkets symbols2 outcome :=
  rfl

/-- C10 (confirmed): both output record types have only string
fields, and `json.Marshal` (modelled by `jsonMarshalCurrency` /
`jsonMarshalCurrencyData`, whose error branch reflects the Go API)
cannot fail on them, so the handlers' 500 SerializationError branches
are unreachable: `CurrencyHandler` answers either 200 with a JSON
content type or 400, and `CurrenciesHandler` always answers 200 with
a JSON content type. -/
theorem c10_no_serialization_error (markets : Markets) (r : Request) :
    ((CurrencyHandler markets r).status = 200 ∧
       (CurrencyHandler markets r).contentType = "application/json" ∨
     (CurrencyHandler markets r).status = 400) ∧
    ((CurrenciesHandler markets r).status = 200 ∧
     (CurrenciesHandler markets r).contentType = "application/json") := by
  constructor
  · by_cases h : queryGet (parseQuery r.rawQuery) "symbol" = ""
    · right
      simp [CurrencyHandler, h, httpError]
    · cases hm : mapGet markets (queryGet (parseQuery r.rawQuery) "symbol") with
      | none =>
        right
        simp [CurrencyHandler, h, hm, httpError]
      | some t =>
        left
        simp [CurrencyHandler, h, hm, jsonMarshalCurrency, okJson]
  · exact ⟨rfl, rfl⟩
